import Mathlib

/-!
Verification of the voice-assistant repository (`src/pages/index.tsx`,
`src/pages/api/chat.ts`) against its natural-language specification.

The client code in `index.tsx` is shallowly embedded below: JS strings are
`List Char` (the inputs of interest are ASCII), the SSE event objects parsed
from the wire are the structure `SEvent`, truthiness tests on optional string
fields follow JS semantics (absent or empty string is falsy), and the
sentence-boundary regex `/[.!?](?:\s|$)/` together with the `while (exec)`
loop of `processStreamingResponse` is embedded as a recursive scanner.
-/

/-- JS `\s` on the ASCII range: space, tab, newline, carriage return,
vertical tab, form feed.  All inputs considered here are ASCII. -/
def wsChar (c : Char) : Bool :=
  c = ' ' || c = '\t' || c = '\n' || c = '\r' || c = '\x0b' || c = '\x0c'

/-- Characters that carry spoken content (not whitespace). -/
def nonWs (c : Char) : Bool := !wsChar c

/-- JS `String.prototype.trim` on a character list: drop whitespace from
both ends. -/
def trimChars (l : List Char) : List Char :=
  ((l.dropWhile wsChar).reverse.dropWhile wsChar).reverse

/-- JS truthiness of an optional string field of a parsed SSE event:
an absent field or the empty string is falsy (`if (event.delta)`,
`if (event.reply)`, `if (event.error)` in `index.tsx`). -/
def truthy : Option String → Bool
  | none => false
  | some s => !s.isEmpty

/-- Embedding of `sentenceEnd.exec(sentenceBuffer)` for the regex
`/[.!?](?:\s|$)/` (index.tsx line 134): returns, for the first match,
`match.index + match[0].length` — the cut position used by the loop.
A terminator followed by whitespace matches two characters; a terminator
at the end of the buffer matches one (the `$` alternative is zero-width). -/
def sentenceEndExec : List Char → Option Nat
  | [] => none
  | c :: rest =>
    if c = '.' || c = '!' || c = '?' then
      match rest with
      | [] => some 1
      | c2 :: _ =>
        if wsChar c2 then some 2
        else (sentenceEndExec rest).map (· + 1)
    else (sentenceEndExec rest).map (· + 1)

/-- The `while ((match = sentenceEnd.exec(sentenceBuffer)) !== null)` loop of
`processStreamingResponse` (index.tsx lines 201-206): repeatedly cut the
buffer at the match end, trim the cut-off piece into a sentence, and keep the
rest.  Each iteration removes at least one character, so fuel equal to the
buffer length is always sufficient; the fuel-exhausted branch is never taken
for the wrapper `splitBuffer` below. -/
def splitWithFuel : Nat → List Char → List (List Char) × List Char
  | 0, buf => ([], buf)
  | fuel + 1, buf =>
    match sentenceEndExec buf with
    | none => ([], buf)
    | some e =>
      let s := trimChars (buf.take e)
      let p := splitWithFuel fuel (buf.drop e)
      (s :: p.1, p.2)

/-- Run the sentence-cutting loop to completion on a buffer, returning the
sentences handed to `enqueueSentence` (in order) and the remaining buffer. -/
def splitBuffer (buf : List Char) : List (List Char) × List Char :=
  splitWithFuel buf.length buf

/-- A parsed SSE event as consumed by `processStreamingResponse`
(index.tsx line 184): `{ delta?: string; done?: boolean; reply?: string;
error?: string }`. -/
structure SEvent where
  delta : Option String := none
  done : Bool := false
  reply : Option String := none
  error : Option String := none
deriving DecidableEq

/-- The per-exchange consumer state of `processStreamingResponse`:
`fullReply`, `sentenceBuffer`, and the ordered list of sentences passed to
`enqueueSentence` so far. -/
structure ConsumeSt where
  fullReply : List Char
  sentenceBuffer : List Char
  emitted : List (List Char)
deriving DecidableEq

/-- Effect of one truthy `delta` fragment on the consumer state
(index.tsx lines 195-207): append to `fullReply` and to the sentence
buffer, then run the sentence-boundary loop, emitting each completed
sentence. -/
def consumeDelta (st : ConsumeSt) (d : List Char) : ConsumeSt :=
  let buf := st.sentenceBuffer ++ d
  let p := splitBuffer buf
  { fullReply := st.fullReply ++ d
    sentenceBuffer := p.2
    emitted := st.emitted ++ p.1 }

/-- Processing of one parsed SSE event (index.tsx lines 191-214): a truthy
`error` field throws; a truthy `delta` is fed to the segmenter; a `done`
event with truthy `reply` replaces `fullReply`. -/
def consumeEvent (st : ConsumeSt) (e : SEvent) : Except String ConsumeSt :=
  if truthy e.error then
    Except.error (e.error.getD "")
  else
    let st1 := if truthy e.delta then consumeDelta st (e.delta.getD "").data else st
    let st2 :=
      if e.done then
        if truthy e.reply then { st1 with fullReply := (e.reply.getD "").data } else st1
      else st1
    Except.ok st2

/-- Fold the event consumer over a list of events from a given state. -/
def consumeEventsFrom (st : ConsumeSt) (events : List SEvent) : Except String ConsumeSt :=
  events.foldlM consumeEvent st

/-- The initial consumer state of an exchange (index.tsx lines 129-131). -/
def initConsume : ConsumeSt := ⟨[], [], []⟩

/-- Consume a whole event stream from the initial state. -/
def consumeEvents (events : List SEvent) : Except String ConsumeSt :=
  consumeEventsFrom initConsume events

/-- The flush after the stream ends (index.tsx lines 221-225): if the
remaining buffer trims to something nonempty, it is enqueued as one final
sentence and the buffer is cleared; otherwise nothing happens. -/
def finishConsume (st : ConsumeSt) : ConsumeSt :=
  let t := trimChars st.sentenceBuffer
  if t.isEmpty then st
  else { st with emitted := st.emitted ++ [t], sentenceBuffer := [] }

/-- Whole-stream consumption as performed by `processStreamingResponse`:
read every event, then flush the leftover buffer. -/
def processStream (events : List SEvent) : Except String ConsumeSt :=
  (consumeEvents events).map finishConsume

/-- Shorthand for an SSE event that carries only a delta fragment. -/
def deltaEv (s : String) : SEvent := { delta := some s }

/-- Shorthand for the terminating done event with an optional reply field. -/
def doneEv (r : Option String) : SEvent := { done := true, reply := r }

/-- C5: feeding the two fragments "Hello there. How are " and "you? Fine."
into the segmenter yields exactly the sentences "Hello there.",
"How are you?", "Fine." in that order, and after only the first fragment
(before the terminators of the later sentences have arrived) exactly the
first sentence has been emitted. -/
theorem c5_segmentation_example :
    (consumeEvents [deltaEv "Hello there. How are "]).map (fun st => st.emitted)
      = Except.ok ["Hello there.".data]
    ∧ (consumeEvents [deltaEv "Hello there. How are ", deltaEv "you? Fine."]).map
        (fun st => st.emitted)
      = Except.ok ["Hello there.".data, "How are you?".data, "Fine.".data] := by
  constructor
  · rfl
  · rfl


/-- Dropping leading whitespace does not change the non-whitespace content. -/
theorem filter_nonWs_dropWhile (l : List Char) :
    (l.dropWhile wsChar).filter nonWs = l.filter nonWs := by
  induction l with
  | nil => rfl
  | cons c t ih =>
    by_cases h : wsChar c = true
    · simp [List.dropWhile_cons, h, List.filter_cons, nonWs, ih]
    · simp [List.dropWhile_cons, h]

/-- Trimming does not change the non-whitespace content. -/
theorem filter_nonWs_trim (l : List Char) :
    (trimChars l).filter nonWs = l.filter nonWs := by
  unfold trimChars
  rw [List.filter_reverse, filter_nonWs_dropWhile, List.filter_reverse,
    List.reverse_reverse, filter_nonWs_dropWhile]

/-- A buffer that trims to nothing holds no spoken content. -/
theorem filter_nonWs_of_trim_empty (l : List Char) (h : trimChars l = []) :
    l.filter nonWs = [] := by
  rw [← filter_nonWs_trim, h]
  rfl

/-- The sentence-cutting loop conserves non-whitespace content: joining the
cut sentences and appending the leftover buffer recovers, up to whitespace,
exactly the input buffer. -/
theorem splitWithFuel_filter (fuel : Nat) : ∀ buf : List Char,
    ((splitWithFuel fuel buf).1.flatten ++ (splitWithFuel fuel buf).2).filter nonWs
      = buf.filter nonWs := by
  induction fuel with
  | zero => intro buf; simp [splitWithFuel]
  | succ n ih =>
    intro buf
    cases h : sentenceEndExec buf with
    | none => simp [splitWithFuel, h]
    | some e =>
      simp only [splitWithFuel, h]
      rw [List.flatten_cons, List.append_assoc, List.filter_append, filter_nonWs_trim,
        ih (buf.drop e), ← List.filter_append, List.take_append_drop]

/-- Consuming one delta fragment appends exactly that fragment's
non-whitespace content to the union of emitted sentences and buffer. -/
theorem consumeDelta_filter (st : ConsumeSt) (d : List Char) :
    ((consumeDelta st d).emitted.flatten ++ (consumeDelta st d).sentenceBuffer).filter nonWs
      = (st.emitted.flatten ++ st.sentenceBuffer).filter nonWs ++ d.filter nonWs := by
  have hp := splitWithFuel_filter (st.sentenceBuffer ++ d).length (st.sentenceBuffer ++ d)
  simp only [consumeDelta, splitBuffer]
  rw [List.flatten_append, List.append_assoc, List.filter_append, hp]
  simp [List.filter_append, List.append_assoc]

/-- Consuming a delta extends the accumulated full reply by that delta. -/
theorem consumeDelta_fullReply (st : ConsumeSt) (d : List Char) :
    (consumeDelta st d).fullReply = st.fullReply ++ d := rfl

/-- Pure view of folding a list of delta fragments through the consumer
(delta events never throw). -/
def consumeDeltas (st : ConsumeSt) (ds : List String) : ConsumeSt :=
  ds.foldl (fun s d => if d.isEmpty then s else consumeDelta s d.data) st

/-- Unfolding one step of the pure delta fold. -/
theorem consumeDeltas_cons (st : ConsumeSt) (d : String) (t : List String) :
    consumeDeltas st (d :: t)
      = consumeDeltas (if d.isEmpty then st else consumeDelta st d.data) t := rfl

/-- Folding delta events through the event consumer succeeds and agrees with
the pure fold. -/
theorem consumeEventsFrom_deltas (ds : List String) : ∀ st : ConsumeSt,
    consumeEventsFrom st (ds.map deltaEv) = Except.ok (consumeDeltas st ds) := by
  induction ds with
  | nil => intro st; rfl
  | cons d t ih =>
    intro st
    have h1 : consumeEvent st (deltaEv d)
        = Except.ok (if d.isEmpty then st else consumeDelta st d.data) := by
      by_cases hd : d.isEmpty <;> simp [consumeEvent, deltaEv, truthy, hd]
    simp only [consumeEventsFrom, List.map_cons, List.foldlM_cons, h1]
    rw [consumeDeltas_cons]
    show consumeEventsFrom _ (t.map deltaEv) = _
    rw [ih]

/-- Folding deltas conserves non-whitespace content. -/
theorem consumeDeltas_filter (ds : List String) : ∀ st : ConsumeSt,
    ((consumeDeltas st ds).emitted.flatten ++ (consumeDeltas st ds).sentenceBuffer).filter nonWs
      = (st.emitted.flatten ++ st.sentenceBuffer).filter nonWs
          ++ ((ds.map String.data).flatten).filter nonWs := by
  induction ds with
  | nil => intro st; simp [consumeDeltas]
  | cons d t ih =>
    intro st
    by_cases hd : d.isEmpty = true
    · have hdata : d.data = [] := by
        have : d = "" := (String.isEmpty_iff d).mp hd
        rw [this]
      rw [consumeDeltas_cons, if_pos hd, ih st]
      simp [hdata]
    · rw [consumeDeltas_cons, if_neg hd, ih (consumeDelta st d.data), consumeDelta_filter]
      simp [List.filter_append, List.append_assoc]

/-- Folding deltas accumulates the full reply as the concatenation of the
fragments. -/
theorem consumeDeltas_fullReply (ds : List String) : ∀ st : ConsumeSt,
    (consumeDeltas st ds).fullReply = st.fullReply ++ ((ds.map String.data)).flatten := by
  induction ds with
  | nil => intro st; simp [consumeDeltas]
  | cons d t ih =>
    intro st
    by_cases hd : d.isEmpty = true
    · have hdata : d.data = [] := by
        have : d = "" := (String.isEmpty_iff d).mp hd
        rw [this]
      rw [consumeDeltas_cons, if_pos hd, ih st]
      simp [hdata]
    · rw [consumeDeltas_cons, if_neg hd, ih (consumeDelta st d.data), consumeDelta_fullReply]
      simp [List.append_assoc]

/-- The end-of-stream flush never touches the full reply. -/
theorem finishConsume_fullReply (st : ConsumeSt) :
    (finishConsume st).fullReply = st.fullReply := by
  unfold finishConsume
  by_cases h : (trimChars st.sentenceBuffer).isEmpty <;> simp [h]

/-- One step of event consumption, with the `Except` bind made explicit. -/
theorem consumeEventsFrom_cons (st : ConsumeSt) (e : SEvent) (rest : List SEvent) :
    consumeEventsFrom st (e :: rest)
      = match consumeEvent st e with
        | Except.ok st' => consumeEventsFrom st' rest
        | Except.error msg => Except.error msg := by
  cases h : consumeEvent st e with
  | ok a =>
    show List.foldlM consumeEvent st (e :: rest) = _
    rw [List.foldlM_cons, h]
    rfl
  | error m =>
    show List.foldlM consumeEvent st (e :: rest) = _
    rw [List.foldlM_cons, h]
    rfl

/-- Event consumption over an appended stream runs the two parts in order. -/
theorem consumeEventsFrom_append (st : ConsumeSt) (l1 l2 : List SEvent) :
    consumeEventsFrom st (l1 ++ l2)
      = match consumeEventsFrom st l1 with
        | Except.ok st' => consumeEventsFrom st' l2
        | Except.error msg => Except.error msg := by
  induction l1 generalizing st with
  | nil => rfl
  | cons e t ih =>
    rw [List.cons_append, consumeEventsFrom_cons, consumeEventsFrom_cons]
    cases h : consumeEvent st e with
    | ok a => exact ih a
    | error m => rfl

/-- Effect of the terminating done event on the consumer state: a truthy
`reply` field replaces the accumulated full reply, otherwise nothing
changes (index.tsx lines 209-214). -/
theorem consumeEvent_done (st : ConsumeSt) (r : Option String) :
    consumeEvent st (doneEv r)
      = Except.ok (if truthy r then { st with fullReply := (r.getD "").data } else st) := by
  by_cases hr : truthy r = true <;> simp [consumeEvent, doneEv, truthy, hr]

/-- C6: after any delta stream, the flush at end of stream appends the
trimmed leftover buffer as one final sentence exactly once (and nothing when
the buffer is all whitespace), and the complete emitted sentence list then
carries every non-whitespace character of the delta stream — no trailing
content of the reply is dropped from speech. -/
theorem c6_final_flush (ds : List String) (st : ConsumeSt)
    (h : consumeEvents (ds.map deltaEv) = Except.ok st) :
    (finishConsume st).emitted
        = st.emitted
            ++ (if (trimChars st.sentenceBuffer).isEmpty then []
                else [trimChars st.sentenceBuffer])
    ∧ ((finishConsume st).emitted.flatten).filter nonWs
        = ((ds.map String.data).flatten).filter nonWs := by
  have hst : st = consumeDeltas initConsume ds := by
    have h2 := consumeEventsFrom_deltas ds initConsume
    rw [consumeEvents, h2] at h
    exact (Except.ok.inj h).symm
  have hinv : (st.emitted.flatten ++ st.sentenceBuffer).filter nonWs
      = ((ds.map String.data).flatten).filter nonWs := by
    rw [hst]
    have := consumeDeltas_filter ds initConsume
    simpa [initConsume] using this
  constructor
  · unfold finishConsume
    by_cases ht : (trimChars st.sentenceBuffer).isEmpty <;> simp [ht]
  · unfold finishConsume
    by_cases ht : (trimChars st.sentenceBuffer).isEmpty = true
    · have htrim : trimChars st.sentenceBuffer = [] := List.isEmpty_iff.mp ht
      have hb : st.sentenceBuffer.filter nonWs = [] :=
        filter_nonWs_of_trim_empty _ htrim
      rw [List.filter_append, hb, List.append_nil] at hinv
      simpa [ht] using hinv
    · simp only [ht, if_neg, Bool.false_eq_true, not_false_eq_true]
      rw [List.flatten_append, List.flatten_cons, List.flatten_nil, List.append_nil,
        List.filter_append, filter_nonWs_trim, ← List.filter_append]
      exact hinv

/-- Witness for C6 at the concrete trailing fragment "thanks" (no terminal
punctuation): it is flushed as the one final sentence and its content is
preserved. -/
theorem c6_final_flush_witness :
    (finishConsume ⟨"thanks".data, "thanks".data, []⟩).emitted
        = ([] : List (List Char))
            ++ (if (trimChars ("thanks".data)).isEmpty then []
                else [trimChars ("thanks".data)])
    ∧ ((finishConsume ⟨"thanks".data, "thanks".data, []⟩).emitted.flatten).filter nonWs
        = (((["thanks"] : List String).map String.data).flatten).filter nonWs :=
  c6_final_flush ["thanks"] ⟨"thanks".data, "thanks".data, []⟩ (by rfl)

/-- C7 (amended): the full reply returned by the stream consumer is the
done event's `reply` field when that field is present and non-empty (JS
truthiness of `event.reply`), and otherwise the concatenation of all
received deltas. -/
theorem c7_reply_preference (ds : List String) (r : Option String) :
    (processStream (ds.map deltaEv ++ [doneEv r])).map (fun st => st.fullReply)
      = Except.ok (if truthy r then (r.getD "").data
                   else ((ds.map String.data)).flatten) := by
  have h1 : consumeEvents (ds.map deltaEv ++ [doneEv r])
      = Except.ok (if truthy r
          then { consumeDeltas initConsume ds with fullReply := (r.getD "").data }
          else consumeDeltas initConsume ds) := by
    rw [consumeEvents, consumeEventsFrom_append]
    rw [show consumeEventsFrom initConsume (ds.map deltaEv)
          = Except.ok (consumeDeltas initConsume ds) from consumeEventsFrom_deltas ds initConsume]
    show consumeEventsFrom (consumeDeltas initConsume ds) [doneEv r] = _
    rw [consumeEventsFrom_cons, consumeEvent_done]
    rfl
  rw [processStream, h1]
  have hfull : (consumeDeltas initConsume ds).fullReply = ((ds.map String.data)).flatten := by
    rw [consumeDeltas_fullReply]
    rfl
  by_cases hr : truthy r = true
  · simp [hr, Except.map, finishConsume_fullReply]
  · simp [hr, Except.map, finishConsume_fullReply, hfull]

/-- Counterexample to C7 as stated: the done event's `reply` field is
present but holds the empty string; the code's truthiness test
`if (event.reply)` skips it, so the final reply is the delta concatenation
"Hi." rather than the present reply field "". -/
theorem c7_present_empty_reply_counterexample :
    (processStream [deltaEv "Hi.", doneEv (some "")]).map (fun st => st.fullReply)
      = Except.ok "Hi.".data
    ∧ "Hi.".data ≠ ("" : String).data := by
  constructor
  · rfl
  · decide

/-- The client state machine values (index.tsx line 4). -/
inductive AppState
  | idle
  | listening
  | recording
  | processing
  | speaking
deriving DecidableEq

/-- Observable client state touched by a playback continuation: the app
state and the sequence of audio blobs actually handed to playback.  Blobs
are abstract identifiers. -/
structure ObsState where
  appState : AppState
  playedAudio : List Nat
deriving DecidableEq

/-- One playback-chain continuation of `enqueueSentence` (index.tsx lines
154-164), with its two resume points made explicit.  The continuation is
scheduled when the previous chain link resolves: it first checks
`activeRef.current` and `abortController.signal.aborted` (snapshot `a1`,
`ab1`), then awaits the synthesis promise (`synth`; a rejection is caught
and skipped), re-checks both flags (snapshot `a2`, `ab2`), and only then
sets the state to `speaking` and plays the blob.  Between a passed check
and its effect there is no suspension point, so check plus effect form one
atomic step of the event loop. -/
def contStep (a1 ab1 a2 ab2 : Bool) (synth : Except Unit Nat) (s : ObsState) : ObsState :=
  if !a1 || ab1 then s
  else
    match synth with
    | Except.error _ => s
    | Except.ok blob =>
      if !a2 || ab2 then s
      else { appState := AppState.speaking, playedAudio := s.playedAudio ++ [blob] }

/-- Timing view of the whole playback chain built by `enqueueSentence`
(index.tsx lines 136-164).  Each job is `((t, ok), d)`: its synthesis
promise settles at time `t` (fulfilled when `ok`, rejected otherwise) and
its audio lasts `d`.  The chain link for job `k` starts when link `k-1`
resolves (at `prev`), awaits the synthesis result, and either plays —
returning the playback interval `some (start, finish)` — or skips,
returning `none`.  A rejected synthesis is caught (`catch` on line 161),
so the chain continues either way. -/
def runChain (active aborted : Bool) : Nat → List ((Nat × Bool) × Nat) → List (Option (Nat × Nat))
  | _, [] => []
  | prev, ((t, ok), d) :: rest =>
    if !active || aborted then none :: runChain active aborted prev rest
    else if ok then
      some (max prev t, max prev t + d) :: runChain active aborted (max prev t + d) rest
    else
      none :: runChain active aborted (max prev t) rest

/-- Entry guard of `enqueueSentence` (index.tsx lines 139-151): a sentence
that trims to nothing, an inactive session, or an aborted token causes an
early return — no synthesis fetch is issued and no playback link is
appended.  Otherwise the sentence is added to both the fetch list and the
playback chain. -/
def enqueueSentence (active aborted : Bool) (sentence : List Char)
    (chain fetches : List (List Char)) : List (List Char) × List (List Char) :=
  if (trimChars sentence).isEmpty || !active || aborted then (chain, fetches)
  else (chain ++ [sentence], fetches ++ [sentence])

/-- With the token aborted, every chain link resolves without playing. -/
theorem runChain_aborted (active : Bool) (prev : Nat)
    (jobs : List ((Nat × Bool) × Nat)) :
    runChain active true prev jobs = jobs.map (fun _ => none) := by
  induction jobs generalizing prev with
  | nil => rfl
  | cons j rest ih =>
    obtain ⟨⟨t, ok⟩, d⟩ := j
    simp [runChain, ih]

/-- C2: once the exchange's token is invalidated, a playback continuation
produces no observable effect — it neither plays audio nor mutates the app
state — whichever resume point observes the invalidation, and the whole
chain plays nothing.  Each continuation checks the active flag and the
token immediately before its effect (index.tsx lines 155 and 158), and the
check-to-effect span contains no suspension point. -/
theorem c2_cancelled_token_inert (a1 ab1 a2 ab2 : Bool) (synth : Except Unit Nat)
    (s : ObsState) (active : Bool) (prev : Nat) (jobs : List ((Nat × Bool) × Nat)) :
    contStep a1 true a2 ab2 synth s = s
    ∧ contStep a1 ab1 a2 true synth s = s
    ∧ runChain active true prev jobs = jobs.map (fun _ => none) := by
  refine ⟨?_, ?_, runChain_aborted active prev jobs⟩
  · simp [contStep]
  · cases synth with
    | error u => by_cases h1 : (!a1 || ab1) = true <;> simp [contStep, h1]
    | ok blob => by_cases h1 : (!a1 || ab1) = true <;> simp [contStep, h1]

/-- The chain produces one entry per enqueued sentence. -/
theorem runChain_length (active aborted : Bool) (prev : Nat)
    (jobs : List ((Nat × Bool) × Nat)) :
    (runChain active aborted prev jobs).length = jobs.length := by
  induction jobs generalizing prev with
  | nil => rfl
  | cons j rest ih =>
    obtain ⟨⟨t, ok⟩, d⟩ := j
    by_cases hg : (!active || aborted) = true
    · simp [runChain, hg, ih]
    · by_cases hok : ok = true <;> simp [runChain, hg, hok, ih]

/-- C9: in an active, uncancelled exchange, a sentence's playback happens
exactly when its synthesis succeeded: a failed or rejected synthesis is
skipped (entry `none`) without failing the chain, and every other
sentence — before or after the failure — still gets its playback link. -/
theorem c9_failed_synthesis_skipped (prev : Nat)
    (jobs : List ((Nat × Bool) × Nat)) :
    (runChain true false prev jobs).map Option.isSome
      = jobs.map (fun j => j.1.2) := by
  induction jobs generalizing prev with
  | nil => rfl
  | cons j rest ih =>
    obtain ⟨⟨t, ok⟩, d⟩ := j
    by_cases hok : ok = true <;> simp [runChain, hok, ih]


/-- Unfolding a chain link whose synthesis succeeds (active, not aborted). -/
theorem runChain_cons_ok (prev t d : Nat) (rest : List ((Nat × Bool) × Nat)) :
    runChain true false prev (((t, true), d) :: rest)
      = some (max prev t, max prev t + d) :: runChain true false (max prev t + d) rest := by
  simp [runChain]

/-- Unfolding a chain link whose synthesis fails (active, not aborted). -/
theorem runChain_cons_fail (prev t d : Nat) (rest : List ((Nat × Bool) × Nat)) :
    runChain true false prev (((t, false), d) :: rest)
      = none :: runChain true false (max prev t) rest := by
  simp [runChain]

/-- Every playback interval starts no earlier than the chain clock at which
its link was scheduled. -/
theorem runChain_start_lb (jobs : List ((Nat × Bool) × Nat)) : ∀ (prev k s e : Nat),
    (runChain true false prev jobs)[k]? = some (some (s, e)) → prev ≤ s := by
  induction jobs with
  | nil => intro prev k s e h; simp [runChain] at h
  | cons j rest ih =>
    obtain ⟨⟨t, ok⟩, d⟩ := j
    intro prev k s e h
    cases ok with
    | true =>
      rw [runChain_cons_ok] at h
      cases k with
      | zero =>
        rw [List.getElem?_cons_zero] at h
        have h2 : max prev t = s ∧ max prev t + d = e := by
          have h3 := Option.some.inj h
          have h4 := Option.some.inj h3
          exact ⟨congrArg Prod.fst h4, congrArg Prod.snd h4⟩
        exact h2.1 ▸ Nat.le_max_left prev t
      | succ k' =>
        rw [List.getElem?_cons_succ] at h
        exact le_trans (le_trans (Nat.le_max_left prev t) (Nat.le_add_right _ d))
          (ih (max prev t + d) k' s e h)
    | false =>
      rw [runChain_cons_fail] at h
      cases k with
      | zero => rw [List.getElem?_cons_zero] at h; exact absurd (Option.some.inj h) (by simp)
      | succ k' =>
        rw [List.getElem?_cons_succ] at h
        exact le_trans (Nat.le_max_left prev t) (ih (max prev t) k' s e h)

/-- C3: playback is strictly FIFO in sentence-emission order.  For any two
links i < j of one exchange's chain whose sentences both play, sentence j's
playback starts no earlier than sentence i's playback finishes, whatever
the synthesis settle times are — in particular a later sentence whose
synthesis resolves first still waits behind every earlier sentence. -/
theorem c3_fifo_playback (jobs : List ((Nat × Bool) × Nat)) :
    ∀ (prev i j si ei sj ej : Nat), i < j →
    (runChain true false prev jobs)[i]? = some (some (si, ei)) →
    (runChain true false prev jobs)[j]? = some (some (sj, ej)) →
    ei ≤ sj := by
  induction jobs with
  | nil => intro prev i j si ei sj ej hij hi hj; simp [runChain] at hi
  | cons job rest ih =>
    obtain ⟨⟨t, ok⟩, d⟩ := job
    intro prev i j si ei sj ej hij hi hj
    cases ok with
    | true =>
      rw [runChain_cons_ok] at hi hj
      cases i with
      | zero =>
        rw [List.getElem?_cons_zero] at hi
        have h4 := Option.some.inj (Option.some.inj hi)
        have hei : ei = max prev t + d := (congrArg Prod.snd h4).symm
        cases j with
        | zero => exact absurd hij (Nat.lt_irrefl 0)
        | succ j' =>
          rw [List.getElem?_cons_succ] at hj
          exact hei ▸ runChain_start_lb rest (max prev t + d) j' sj ej hj
      | succ i' =>
        cases j with
        | zero => exact absurd hij (by omega)
        | succ j' =>
          rw [List.getElem?_cons_succ] at hi hj
          exact ih (max prev t + d) i' j' si ei sj ej (by omega) hi hj
    | false =>
      rw [runChain_cons_fail] at hi hj
      cases i with
      | zero => rw [List.getElem?_cons_zero] at hi; exact absurd (Option.some.inj hi) (by simp)
      | succ i' =>
        cases j with
        | zero => exact absurd hij (by omega)
        | succ j' =>
          rw [List.getElem?_cons_succ] at hi hj
          exact ih (max prev t) i' j' si ei sj ej (by omega) hi hj

/-- Witness for C3: sentence S1's synthesis settles at time 10 (duration 5),
S2's at time 0 — before S1's — yet S2's playback start (15) still waits for
S1's playback end (15). -/
theorem c3_fifo_playback_witness : (15 : Nat) ≤ 15 :=
  c3_fifo_playback [((10, true), 5), ((0, true), 3)] 0 0 1 10 15 15 18
    (by decide) (by decide) (by decide)

/-- C10: a sentence that is empty or whitespace-only makes `enqueueSentence`
a no-op: no synthesis fetch is issued and no playback link is appended,
whatever the session and token flags are. -/
theorem c10_blank_sentence_noop (active aborted : Bool) (s : List Char)
    (chain fetches : List (List Char)) (h : (trimChars s).isEmpty = true) :
    enqueueSentence active aborted s chain fetches = (chain, fetches) := by
  simp [enqueueSentence, h]

/-- Witness for C10 at the concrete whitespace-only sentence "   ". -/
theorem c10_blank_sentence_noop_witness :
    enqueueSentence true false "   ".data [] [] = ([], []) :=
  c10_blank_sentence_noop true false "   ".data [] [] (by decide)

/-- VAD silence threshold τ (index.tsx line 11). -/
def SILENCE_THRESHOLD : Rat := 0.02

/-- Continuous-silence duration required to finalize (index.tsx line 12). -/
def SILENCE_DURATION_MS : Nat := 1500

/-- Minimum utterance duration required to finalize (index.tsx line 13). -/
def MIN_RECORDING_MS : Nat := 500

/-- VAD state carried between animation-frame ticks of the monitor in
`startListening`: whether the state machine is in `recording` (versus
`listening`), and the `recordingStartRef` / `silenceStartRef` timestamps
(0 encodes "unset", exactly as in the source). -/
structure VadSt where
  recording : Bool
  recordingStart : Nat
  silenceStart : Nat
deriving DecidableEq

/-- One tick of the VAD monitor (index.tsx lines 401-427) given the current
time and the RMS level computed for this frame.  Returns the next state and
whether this tick finalizes the utterance (stops the recorder and ends
monitoring for the turn — the `return` on line 424). -/
def vadStep (st : VadSt) (now : Nat) (rms : Rat) : VadSt × Bool :=
  if !st.recording then
    if rms > SILENCE_THRESHOLD then
      ({ recording := true, recordingStart := now, silenceStart := 0 }, false)
    else (st, false)
  else
    if rms > SILENCE_THRESHOLD then
      ({ st with silenceStart := 0 }, false)
    else
      let s0 := if st.silenceStart = 0 then now else st.silenceStart
      let elapsed := now - st.recordingStart
      let silentFor := now - s0
      if MIN_RECORDING_MS ≤ elapsed ∧ SILENCE_DURATION_MS ≤ silentFor then
        ({ st with silenceStart := s0 }, true)
      else
        ({ st with silenceStart := s0 }, false)

/-- C4: while recording, a silent tick (RMS not above τ) finalizes exactly
when the elapsed recording time is at least MIN_RECORDING_MS (500 ms) and
the continuous silence time — measured from the tick at which silence
began — is at least SILENCE_DURATION_MS (1500 ms); and a loud tick
(RMS above τ) cancels the silence timer and keeps recording without
finalizing. -/
theorem c4_vad_finalize (st : VadSt) (now : Nat) (rms : Rat)
    (hrec : st.recording = true) :
    (rms ≤ SILENCE_THRESHOLD →
      ((vadStep st now rms).2 = true ↔
        (st.recordingStart + MIN_RECORDING_MS ≤ now
          ∧ (if st.silenceStart = 0 then now else st.silenceStart)
              + SILENCE_DURATION_MS ≤ now)))
    ∧ (SILENCE_THRESHOLD < rms →
        vadStep st now rms = ({ st with silenceStart := 0 }, false)) := by
  constructor
  · intro hle
    have hgt : ¬ (rms > SILENCE_THRESHOLD) := not_lt.mpr hle
    have hshape : (vadStep st now rms).2 = true ↔
        (MIN_RECORDING_MS ≤ now - st.recordingStart
          ∧ SILENCE_DURATION_MS
              ≤ now - (if st.silenceStart = 0 then now else st.silenceStart)) := by
      simp only [vadStep, hrec, Bool.not_true, Bool.false_eq_true, if_false, hgt]
      generalize (if st.silenceStart = 0 then now else st.silenceStart) = q
      by_cases hc : MIN_RECORDING_MS ≤ now - st.recordingStart
          ∧ SILENCE_DURATION_MS ≤ now - q
      · rw [if_pos hc]; simpa using hc
      · rw [if_neg hc]; simpa using hc
    rw [hshape]
    unfold MIN_RECORDING_MS SILENCE_DURATION_MS
    by_cases h0 : st.silenceStart = 0
    · simp only [if_pos h0]
      omega
    · simp only [if_neg h0]
      omega
  · intro hgt
    simp [vadStep, hrec, hgt]

/-- Witness for C4: recording since t=1000 with silence since t=2000; at
t=3500 with RMS 0.01 ≤ τ both thresholds (500 ms recording, 1500 ms of
silence) are met and the tick finalizes. -/
theorem c4_vad_finalize_witness :
    (vadStep ⟨true, 1000, 2000⟩ 3500 0.01).2 = true :=
  ((c4_vad_finalize ⟨true, 1000, 2000⟩ 3500 0.01 rfl).1 (by norm_num [SILENCE_THRESHOLD])).mpr
    (by norm_num [MIN_RECORDING_MS, SILENCE_DURATION_MS])

/-- Conversation roles of client-side history messages (index.tsx line 7). -/
inductive Role
  | user
  | assistant
deriving DecidableEq

/-- Client session state visible to `processAudio`: the app state, the
user-visible error channel, and the conversation history. -/
structure Sess where
  appState : AppState
  errorMsg : Option String
  messages : List (Role × String)
deriving DecidableEq

/-- Embedding of `processAudio` (index.tsx lines 236-300), one exchange.
Environment inputs: `active` is the session flag (constant during the call;
only start/stopSession write it), `transcribeRes` the transcription outcome
(`Except.error` for a non-OK response), `chatRes` the chat response (an
event list when OK), and `spoke` whether the playback chain set the state
to `speaking` during streaming (line 159).  A thrown error reaches the
catch block carrying the session state as already mutated (React state
mutations are not rolled back), which surfaces the message and — when the
session is active — returns to `listening`, else to `idle`. -/
def processAudio (active : Bool) (transcribeRes : Except String String)
    (chatRes : Except String (List SEvent)) (spoke : Bool) (st : Sess) : Sess :=
  let st0 := { st with appState := AppState.processing, errorMsg := none }
  let outcome : Except (String × Sess) Sess :=
    match transcribeRes with
    | Except.error e => Except.error (e, st0)
    | Except.ok text =>
      if !active then Except.ok st0
      else
        let st1 := { st0 with messages := st0.messages ++ [(Role.user, text)] }
        match chatRes with
        | Except.error e =>
          if !active then Except.ok st1 else Except.error (e, st1)
        | Except.ok events =>
          if !active then Except.ok st1
          else
            match consumeEvents events with
            | Except.error e => Except.error (e, st1)
            | Except.ok cst =>
              let reply := String.mk (finishConsume cst).fullReply
              let st2 := { st1 with
                messages := st1.messages ++ [(Role.assistant, reply)] }
              let st3 := if spoke then { st2 with appState := AppState.speaking } else st2
              if active = true ∧ st3.appState = AppState.speaking then
                Except.ok { st3 with appState := AppState.listening }
              else if !active then Except.ok { st3 with appState := AppState.idle }
              else Except.ok st3
  match outcome with
  | Except.ok st' => st'
  | Except.error (msg, stE) =>
    let stE1 := { stE with errorMsg := some msg }
    if active then { stE1 with appState := AppState.listening }
    else { stE1 with appState := AppState.idle }

/-- C8: with the session active, each recoverable exchange error — a failed
transcription request, a non-OK chat response, or an error event on the
chat stream — is caught at the exchange boundary, surfaced on the
user-visible error channel, and the system returns to `listening`; no such
error ends the session (the state is `listening`, never `idle`, and
`processAudio` never clears the active flag). -/
theorem c8_recoverable_errors (chatRes : Except String (List SEvent))
    (events : List SEvent) (spoke : Bool) (st : Sess) (e t : String) :
    ((processAudio true (Except.error e) chatRes spoke st).errorMsg = some e
      ∧ (processAudio true (Except.error e) chatRes spoke st).appState
          = AppState.listening)
    ∧ ((processAudio true (Except.ok t) (Except.error e) spoke st).errorMsg = some e
      ∧ (processAudio true (Except.ok t) (Except.error e) spoke st).appState
          = AppState.listening)
    ∧ (consumeEvents events = Except.error e →
        (processAudio true (Except.ok t) (Except.ok events) spoke st).errorMsg = some e
        ∧ (processAudio true (Except.ok t) (Except.ok events) spoke st).appState
            = AppState.listening) := by
  refine ⟨⟨?_, ?_⟩, ⟨?_, ?_⟩, fun h => ⟨?_, ?_⟩⟩ <;> simp [processAudio, *]

/-- Witness for C8 at a concrete stream error event: the exchange surfaces
"boom" and resumes listening. -/
theorem c8_recoverable_errors_witness :
    (processAudio true (Except.ok "hi") (Except.ok [⟨none, false, none, some "boom"⟩])
        false ⟨AppState.idle, none, []⟩).errorMsg = some "boom"
    ∧ (processAudio true (Except.ok "hi") (Except.ok [⟨none, false, none, some "boom"⟩])
        false ⟨AppState.idle, none, []⟩).appState = AppState.listening :=
  (c8_recoverable_errors (Except.ok []) [⟨none, false, none, some "boom"⟩]
    false ⟨AppState.idle, none, []⟩ "boom" "hi").2.2 (by rfl)

/-- Tool-loop iteration cap (chat.ts line 10). -/
def MAX_TOOL_ITERATIONS : Nat := 5

/-- One tool-call fragment of a streamed model chunk
(chat.ts lines 433-443): `{ index, id?, function?.name?, function?.arguments? }`. -/
structure ToolCallDelta where
  index : Nat
  id : Option String := none
  name : Option String := none
  args : Option String := none
deriving DecidableEq

/-- One streamed chunk's delta from the model (chat.ts lines 422-444):
optional text content and an optional array of tool-call fragments.
A present-but-empty array still sets `hasToolCalls` (a non-null array is
truthy in JS). -/
structure ModelChunk where
  content : Option String := none
  toolCalls : Option (List ToolCallDelta) := none
deriving DecidableEq

/-- Accumulated tool call (chat.ts line 419): id, name, and concatenated
argument string. -/
structure ToolCallAcc where
  id : String
  name : String
  args : String
deriving DecidableEq

/-- Merging one tool-call fragment into an accumulator entry
(chat.ts lines 440-442): truthy id and name overwrite, truthy arguments
append. -/
def applyTC (a : ToolCallAcc) (tc : ToolCallDelta) : ToolCallAcc :=
  { id := if truthy tc.id then tc.id.getD "" else a.id
    name := if truthy tc.name then tc.name.getD "" else a.name
    args := if truthy tc.args then a.args ++ tc.args.getD "" else a.args }

/-- The `toolCallAccum` record keyed by `tc.index` (chat.ts lines 435-443),
as an association list; the indices streamed by the model arrive in
ascending order, so insertion order matches the ascending numeric-key
iteration order of `Object.values`. -/
def updateAccum : List (Nat × ToolCallAcc) → ToolCallDelta → List (Nat × ToolCallAcc)
  | [], tc => [(tc.index, applyTC ⟨"", "", ""⟩ tc)]
  | (i, a) :: rest, tc =>
    if i = tc.index then (i, applyTC a tc) :: rest
    else (i, a) :: updateAccum rest tc

/-- Server-side conversation messages (OpenAI chat messages built in
chat.ts lines 452-478 and 512-516). -/
inductive ChatMsg
  | system (content : String)
  | user (content : String)
  | assistant (content : Option String) (toolCalls : List ToolCallAcc)
  | tool (id : String) (content : String)
deriving DecidableEq

/-- The `lastMsg.role === "tool"` test (chat.ts lines 529 and 541). -/
def isToolMsg : ChatMsg → Bool
  | ChatMsg.tool _ _ => true
  | _ => false

/-- SSE events written by the chat handler that matter for the streamed
text: `sendSSE(res, { delta })` (line 429) and
`sendSSE(res, { done: true, reply })` (line 546). -/
inductive SSESent
  | delta (text : String)
  | doneWith (reply : String)
deriving DecidableEq

/-- Names registered in `toolHandlers` (chat.ts lines 365-371). -/
def toolNames : List String :=
  ["search_emails", "read_email", "read_attachment", "send_email", "reply_to_email"]

/-- Embedding of `streamFinalResponse` (chat.ts lines 405-485) for one
model response.  The model's reply is a list of chunks (`round`); the
external tool handlers are the oracle `execTool` (name, accumulated
arguments → result text).  Every truthy text content delta is immediately
sent to the client as an SSE `delta` event and appended to `fullReply`;
tool-call fragments are accumulated.  If tool calls occurred, the
assistant message (content `null` when the round's text was empty) and one
tool message per call are appended to the conversation.  Returns
(SSE events sent, updated conversation, fullReply). -/
def streamFinalResponse (execTool : String → String → String)
    (round : List ModelChunk) (msgs : List ChatMsg) :
    List SSESent × List ChatMsg × String :=
  let r := round.foldl
    (fun (st : List SSESent × String × List (Nat × ToolCallAcc) × Bool) ch =>
      let evs := st.1
      let full := st.2.1
      let accum := st.2.2.1
      let hasTC := st.2.2.2
      let evs2 := if truthy ch.content then evs ++ [SSESent.delta (ch.content.getD "")] else evs
      let full2 := if truthy ch.content then full ++ ch.content.getD "" else full
      match ch.toolCalls with
      | none => (evs2, full2, accum, hasTC)
      | some tcs => (evs2, full2, tcs.foldl updateAccum accum, true))
    ([], "", [], false)
  let evs := r.1
  let full := r.2.1
  let accum := r.2.2.1
  let hasTC := r.2.2.2
  if hasTC && !accum.isEmpty then
    let toolCalls := accum.map (fun p => p.2)
    let msgs1 := msgs ++ [ChatMsg.assistant (if full = "" then none else some full) toolCalls]
    let msgs2 := msgs1 ++ toolCalls.map (fun tc =>
      ChatMsg.tool tc.id (if tc.name ∈ toolNames then execTool tc.name tc.args
        else "Error: unknown tool \"" ++ tc.name ++ "\""))
    (evs, msgs2, full)
  else (evs, msgs, full)

/-- The bounded tool loop of the chat handler (chat.ts lines 520-536):
up to `fuel` rounds, each calling `streamFinalResponse` on the next model
response (`rounds` supplies the model's successive responses; an exhausted
list yields an empty response).  The loop continues while the conversation
still ends in a tool message, else breaks.  Returns (SSE events sent,
conversation, finalReply, remaining model responses). -/
def chatToolLoop (execTool : String → String → String) :
    Nat → List (List ModelChunk) → List ChatMsg → String →
    List SSESent × List ChatMsg × String × List (List ModelChunk)
  | 0, rounds, msgs, finalReply => ([], msgs, finalReply, rounds)
  | Nat.succ n, rounds, msgs, _ =>
    let r := streamFinalResponse execTool (rounds.headD []) msgs
    let evs := r.1
    let msgs1 := r.2.1
    let reply := r.2.2
    match msgs1.getLast? with
    | some m =>
      if isToolMsg m then
        let r2 := chatToolLoop execTool n rounds.tail msgs1 reply
        (evs ++ r2.1, r2.2.1, r2.2.2.1, r2.2.2.2)
      else (evs, msgs1, reply, rounds.tail)
    | none => (evs, msgs1, reply, rounds.tail)

/-- Embedding of the chat handler's streaming path (chat.ts lines
506-547): build the conversation from the system prompt, history, and the
user message; run the bounded tool loop; if the conversation still ends in
a tool message, run one final forced round; finally send the `done` event
carrying `finalReply`.  Returns (all SSE events in order, finalReply). -/
def chatHandler (execTool : String → String → String) (sysPrompt : String)
    (history : List ChatMsg) (message : String)
    (rounds : List (List ModelChunk)) : List SSESent × String :=
  let msgs0 := ChatMsg.system sysPrompt :: (history ++ [ChatMsg.user message])
  let r := chatToolLoop execTool MAX_TOOL_ITERATIONS rounds msgs0 ""
  let evs := r.1
  let msgs := r.2.1
  let finalReply := r.2.2.1
  let rest := r.2.2.2
  let r2 :=
    match msgs.getLast? with
    | some m =>
      if isToolMsg m then
        let rr := streamFinalResponse execTool (rest.headD []) msgs
        (evs ++ rr.1, rr.2.2)
      else (evs, finalReply)
    | none => (evs, finalReply)
  (r2.1 ++ [SSESent.doneWith r2.2], r2.2)

/-- Model response for round 1 of the C1 scenario: the model speaks the
filler text "Let me check." (as the system prompt instructs it to) and in
the same round calls the `search_emails` tool. -/
def c1Round1 : List ModelChunk :=
  [ { content := some "Let me check." },
    { toolCalls := some [ { index := 0
                            id := some "call1"
                            name := some "search_emails"
                            args := some "\x7b\x7d" } ] } ]

/-- Model response used for the later rounds of the C1 scenario: the final
natural-language answer, with no tool calls. -/
def c1Round2 : List ModelChunk := [ { content := some "I found 3 emails." } ]

/-- Tool oracle for the C1 scenario. -/
def c1Oracle : String → String → String := fun _ _ => "ID: m1 From: Alice"

/-- C1 fails on the code: text the model produces during an intermediate
round of the tool loop IS streamed to the client as delta events.
In this concrete run, round 1 carries the intermediate text
"Let me check." together with a tool call; the handler streams that text
as a delta even though the final reply is "I found 3 emails.".  (The run
also shows the loop re-streaming the answer in every remaining round,
because a conversation that once contains a tool message keeps ending in
one, so the `lastMsg.role === "tool"` break condition never fires.) -/
theorem c1_intermediate_text_streamed :
    (chatHandler c1Oracle "sys" [] "any emails from Alice?"
        [c1Round1, c1Round2, c1Round2, c1Round2, c1Round2, c1Round2]).1
      = [SSESent.delta "Let me check.", SSESent.delta "I found 3 emails.",
         SSESent.delta "I found 3 emails.", SSESent.delta "I found 3 emails.",
         SSESent.delta "I found 3 emails.", SSESent.delta "I found 3 emails.",
         SSESent.doneWith "I found 3 emails."]
    ∧ (chatHandler c1Oracle "sys" [] "any emails from Alice?"
        [c1Round1, c1Round2, c1Round2, c1Round2, c1Round2, c1Round2]).2
      = "I found 3 emails."
    ∧ SSESent.delta "Let me check."
        ∈ (chatHandler c1Oracle "sys" [] "any emails from Alice?"
            [c1Round1, c1Round2, c1Round2, c1Round2, c1Round2, c1Round2]).1 := by
  refine ⟨?_, ?_, ?_⟩
  · rfl
  · rfl
  · decide
